import Mathlib

/-!
Verification of the wallet service core (in-memory ledger store, idempotency
guard, transfer coordinator, reference generator).

The development shallowly embeds the TypeScript sources:
  - `src/wallet/entities/wallet.entity.ts` (Wallet entity),
  - the in-memory `WalletRepository` (create / findById / update with
    optimistic locking, defensive cloning),
  - `src/wallet/services/wallet.service.ts` (WalletService: createWallet,
    fundWallet, transferFunds, executeFunding, executeTransfer,
    executeTransferWithRetry, rollbackSourceWallet, validateAmount),
  - `src/wallet/services/idempotency.service.ts` (IdempotencyService),
  - `TransactionService.generateTransactionReference`.

Modelling conventions:
  - JS numbers used as monetary amounts are modelled as exact decimal
    rationals (ℚ), matching the spec's fixed-point decimal semantics.
  - Wall-clock instants (Date) are abstract ticks in ℕ.
  - Async methods are pure state-passing functions; a thrown exception is
    an `Except.error`; interleaving by other tasks between two repository
    calls is modelled by explicit environment functions `Store → Store`
    (instantiated with `id` for sequential executions).
  - `uuidv4` is modelled as an injective fresh-id supply (a counter),
    which reflects the only property the code relies on (no collisions).
-/

namespace WalletSys

deriving instance DecidableEq for Except

/-- Currency enum from wallet.entity.ts (single member USD). -/
inductive Currency where
  | USD
deriving DecidableEq, Repr

/-- Wallet entity (wallet.entity.ts): id, currency, balance, optimistic
version counter starting at 1, and creation/update timestamps. -/
structure Wallet where
  id : String
  currency : Currency
  balance : ℚ
  version : ℕ
  createdAt : ℕ
  updatedAt : ℕ
deriving DecidableEq, Repr

/-- Wallet constructor: validateBalance throws when the initial balance is
negative; otherwise version starts at 1 and both timestamps are now. -/
def Wallet.make (id : String) (currency : Currency) (balance : ℚ) (now : ℕ) :
    Except String Wallet :=
  if balance < 0 then .error "Wallet balance cannot be negative"
  else .ok { id := id, currency := currency, balance := balance,
             version := 1, createdAt := now, updatedAt := now }

/-- Wallet.fund: throws on a non-positive amount, otherwise adds the amount,
refreshes updatedAt and bumps the in-memory version. -/
def Wallet.fund (w : Wallet) (amount : ℚ) (now : ℕ) : Except String Wallet :=
  if amount ≤ 0 then .error "Fund amount must be positive"
  else .ok { w with balance := w.balance + amount, updatedAt := now,
                    version := w.version + 1 }

/-- Wallet.deduct: throws on a non-positive amount or when the amount exceeds
the balance, otherwise subtracts, refreshes updatedAt and bumps the version. -/
def Wallet.deduct (w : Wallet) (amount : ℚ) (now : ℕ) : Except String Wallet :=
  if amount ≤ 0 then .error "Deduct amount must be positive"
  else if w.balance < amount then .error "Insufficient balance"
  else .ok { w with balance := w.balance - amount, updatedAt := now,
                    version := w.version + 1 }

/-- Wallet.hasSufficientBalance: balance >= amount. -/
def Wallet.hasSufficientBalance (w : Wallet) (amount : ℚ) : Bool :=
  amount ≤ w.balance

/-- The in-memory wallet store: the Map of WalletRepository, as an
association list keyed by wallet id (a JS Map never holds two entries with
the same key, so key-replacing insertion below replaces the first and only
matching entry). -/
abbrev Store := List Wallet

/-- Map.get by wallet id (the repository's lookups).  Defensive cloning on
read is the identity in this pure model. -/
def findById (s : Store) (i : String) : Option Wallet :=
  s.find? (fun x => x.id == i)

/-- Map.set: replace the entry with the same id, or append when absent. -/
def storeSet : Store → Wallet → Store
  | [], c => [c]
  | x :: xs, c => if x.id == c.id then c :: xs else x :: storeSet xs c

/-- The value produced by the repository's cloneWallet when the constructor
validation passes: same id/currency/balance/version/updatedAt; createdAt is
set by the constructor, hence refreshed to the clone instant. -/
def cloneVal (w : Wallet) (now : ℕ) : Wallet :=
  { id := w.id, currency := w.currency, balance := w.balance,
    version := w.version, createdAt := now, updatedAt := w.updatedAt }

/-- WalletRepository.cloneWallet: it builds a fresh Wallet through the
validating constructor, which throws when the balance is negative. -/
def cloneWallet (w : Wallet) (now : ℕ) : Except String Wallet :=
  if w.balance < 0 then .error "Wallet balance cannot be negative"
  else .ok (cloneVal w now)

/-- WalletRepository.create: throws WalletAlreadyExists when the id is
present, otherwise stores a defensive clone.  (The domain error is raised by
the caller-facing wrapper below; here we only signal it.) -/
def repoCreate (s : Store) (w : Wallet) (now : ℕ) :
    Except String (Option Store) :=
  match findById s w.id with
  | some _ => .ok none
  | none => (cloneWallet w now).map (fun c => some (storeSet s c))

/-- WalletRepository.update with optimistic locking: false when the wallet is
absent or the stored version differs from expectedVersion; otherwise the
argument wallet's version becomes expectedVersion + 1, its updatedAt is
refreshed, and a clone is stored.  Returns (success flag, the mutated
argument wallet, the new store). -/
def repoUpdate (s : Store) (w : Wallet) (expectedVersion : ℕ) (now : ℕ) :
    Except String (Bool × Wallet × Store) :=
  match findById s w.id with
  | none => .ok (false, w, s)
  | some existing =>
    if existing.version ≠ expectedVersion then .ok (false, w, s)
    else
      let w' := { w with version := expectedVersion + 1, updatedAt := now }
      (cloneWallet w' now).map (fun c => (true, w', storeSet s c))

/-- Sum of all stored balances. -/
def sumBalances (s : Store) : ℚ := (s.map Wallet.balance).sum

/-- Transaction type enum (transaction.entity.ts). -/
inductive TransactionType where
  | FUNDING
  | TRANSFER
  | WITHDRAWAL
deriving DecidableEq, Repr

/-- Transaction status enum (transaction.entity.ts). -/
inductive TransactionStatus where
  | PENDING
  | COMPLETED
  | FAILED
  | REVERSED
deriving DecidableEq, Repr

/-- Transaction entity.  The id is drawn from the injective uuid supply and
hence modelled as ℕ; metadata is omitted (no claim observes it). -/
structure Transaction where
  id : ℕ
  reference : String
  type : TransactionType
  sourceWalletId : Option String
  targetWalletId : String
  amount : ℚ
  currency : Currency
  status : TransactionStatus
  createdAt : ℕ
  updatedAt : ℕ
deriving DecidableEq, Repr

/-- Transaction constructor: validateAmount throws on a non-positive amount;
validateTransactionType throws when a FUNDING transaction has a source
wallet or a TRANSFER transaction lacks one; status defaults to COMPLETED. -/
def Transaction.make (id : ℕ) (reference : String) (ty : TransactionType)
    (src : Option String) (tgt : String) (amount : ℚ) (currency : Currency)
    (now : ℕ) : Except String Transaction :=
  if amount ≤ 0 then .error "Transaction amount must be positive"
  else if ty = .FUNDING ∧ src.isSome then
    .error "Funding transactions should not have a source wallet"
  else if ty = .TRANSFER ∧ src.isNone then
    .error "Transfer transactions must have a source wallet"
  else .ok { id := id, reference := reference, type := ty,
             sourceWalletId := src, targetWalletId := tgt, amount := amount,
             currency := currency, status := .COMPLETED,
             createdAt := now, updatedAt := now }

/-- Append-only transaction log owned by the transaction repository. -/
abbrev TxnLog := List Transaction

/-- Modelled from the spec: the source of TransactionRepository.create is not
under src/ (only TransactionService, its callers and tests are).  Spec
section 4.1: append(transaction) fails if the id collides — which "should
never happen with generated ids" — and otherwise appends to the log. -/
def appendTransaction (log : TxnLog) (t : Transaction) : Except String TxnLog :=
  if log.any (fun x => x.id == t.id) then .error "Transaction id collision"
  else .ok (log ++ [t])

/-- Domain error taxonomy (src/common/errors/domain.errors.ts), plus
entityError for plain Errors thrown by entity constructors/methods. -/
inductive Err where
  | walletNotFound (walletId : String)
  | walletAlreadyExists (walletId : String)
  | insufficientBalance (walletId : String) (required available : ℚ)
  | duplicateTransaction (idempotencyKey : String)
  | invalidTransactionAmount (amount : ℚ) (reason : String)
  | sameWalletTransfer (walletId : String)
  | concurrentModification (resource : String) (resourceId : String)
  | entityError (msg : String)
deriving DecidableEq, Repr

/-- WalletResponseDto produced by WalletService.mapToWalletResponse. -/
structure WalletResponse where
  id : String
  currency : Currency
  balance : ℚ
  version : ℕ
  createdAt : ℕ
  updatedAt : ℕ
deriving DecidableEq, Repr

/-- WalletService.mapToWalletResponse. -/
def mapToWalletResponse (w : Wallet) : WalletResponse :=
  { id := w.id, currency := w.currency, balance := w.balance,
    version := w.version, createdAt := w.createdAt, updatedAt := w.updatedAt }

/-- TransferResponseDto: both updated wallets plus the transaction record. -/
structure TransferResponse where
  sourceWallet : WalletResponse
  targetWallet : WalletResponse
  transaction : Transaction
deriving DecidableEq, Repr

/-- The value cached/returned through the idempotency layer.  The TS cache
stores responses untyped (any); the service returns a cached value with an
unchecked cast, which this sum type mirrors. -/
inductive ResponseVal where
  | fund (r : WalletResponse)
  | transfer (r : TransferResponse)
deriving DecidableEq, Repr

/- JSON-like request parameter values handled by the idempotency guard's
canonicalization (numbers are the exact decimal rationals of the model).
Arrays and objects use bespoke list types so that equality and recursion
stay structural. -/
mutual

/-- JSON values (see the comment above the mutual block). -/
inductive Json where
  | null
  | bool (b : Bool)
  | num (q : ℚ)
  | str (s : String)
  | arr (xs : JsonList)
  | obj (kvs : JsonKvs)
deriving DecidableEq, Repr

inductive JsonList where
  | nil
  | cons (hd : Json) (tl : JsonList)
deriving DecidableEq, Repr

inductive JsonKvs where
  | nil
  | cons (k : String) (v : Json) (tl : JsonKvs)
deriving DecidableEq, Repr

end

/-- Insertion into a key-sorted key-value sequence (building block for
Object.keys(obj).sort()). -/
def kvsInsert (k : String) (v : Json) : JsonKvs → JsonKvs
  | .nil => .cons k v .nil
  | .cons k' v' tl =>
    if k ≤ k' then .cons k v (.cons k' v' tl) else .cons k' v' (kvsInsert k v tl)

/-- Sort a key-value sequence by key (JS object keys are unique, so the key
order fully determines the result). -/
def kvsSortByKey : JsonKvs → JsonKvs
  | .nil => .nil
  | .cons k v tl => kvsInsert k v (kvsSortByKey tl)

mutual

/-- IdempotencyService.sortObjectKeys: recursively sorts all object keys so
that key ordering never affects the serialized form; arrays are mapped
element-wise and scalars are returned unchanged. -/
def sortObjectKeys : Json → Json
  | .null => .null
  | .bool b => .bool b
  | .num q => .num q
  | .str s => .str s
  | .arr xs => .arr (sortJsonList xs)
  | .obj kvs => .obj (kvsSortByKey (sortJsonKvs kvs))

def sortJsonList : JsonList → JsonList
  | .nil => .nil
  | .cons x xs => .cons (sortObjectKeys x) (sortJsonList xs)

def sortJsonKvs : JsonKvs → JsonKvs
  | .nil => .nil
  | .cons k v tl => .cons k (sortObjectKeys v) (sortJsonKvs tl)

end

/-- Decimal rendering of an exact rational number for JSON.stringify: an
integer renders as in JS; a non-integer value is rendered injectively from
its reduced fraction (the claims only hash integer-valued amounts, where
this coincides with the JS rendering). -/
def renderNum (q : ℚ) : String :=
  if q.den = 1 then toString q.num
  else toString q.num ++ "/" ++ toString q.den

mutual

/-- JSON.stringify over the model values (string escaping is not needed for
the plain identifiers appearing in requests). -/
def jsonStringify : Json → String
  | .null => "null"
  | .bool b => if b then "true" else "false"
  | .num q => renderNum q
  | .str s => "\"" ++ s ++ "\""
  | .arr xs => "[" ++ stringifyJsonList xs ++ "]"
  | .obj kvs => "\x7b" ++ stringifyJsonKvs kvs ++ "\x7d"

def stringifyJsonList : JsonList → String
  | .nil => ""
  | .cons x .nil => jsonStringify x
  | .cons x (.cons y tl) => jsonStringify x ++ "," ++ stringifyJsonList (.cons y tl)

def stringifyJsonKvs : JsonKvs → String
  | .nil => ""
  | .cons k v .nil => "\"" ++ k ++ "\":" ++ jsonStringify v
  | .cons k v (.cons k' v' tl) =>
    "\"" ++ k ++ "\":" ++ jsonStringify v ++ "," ++ stringifyJsonKvs (.cons k' v' tl)

end

/-- IdempotencyService.generateHash: SHA-256 over
idempotencyKey | operation | JSON.stringify(sortObjectKeys(requestData)).
The digest is modelled by the hash input string itself, which captures the
two properties the code relies on: determinism and collision-freedom. -/
def generateHash (idempotencyKey operation : String) (requestData : Json) : String :=
  idempotencyKey ++ "|" ++ operation ++ "|" ++ jsonStringify (sortObjectKeys requestData)

/-- IdempotencyService.requestDataMatches: deep comparison via canonical
JSON serialization. -/
def requestDataMatches (d1 d2 : Json) : Bool :=
  jsonStringify (sortObjectKeys d1) == jsonStringify (sortObjectKeys d2)

/-- An IdempotencyRecord of the idempotency cache. -/
structure IdemRecord where
  key : String
  operation : String
  hash : String
  requestData : Json
  response : ResponseVal
  createdAt : ℕ
  expiresAt : ℕ
deriving DecidableEq, Repr

/-- The idempotency cache: a Map keyed by hash. -/
abbrev IdemCache := List (String × IdemRecord)

/-- Map.get on the idempotency cache. -/
def cacheGet (c : IdemCache) (h : String) : Option IdemRecord :=
  (c.find? (fun kv => kv.1 == h)).map Prod.snd

/-- Map.set on the idempotency cache. -/
def cacheSet : IdemCache → String × IdemRecord → IdemCache
  | [], kv => [kv]
  | x :: xs, kv => if x.1 == kv.1 then kv :: xs else x :: cacheSet xs kv

/-- Map.delete on the idempotency cache. -/
def cacheDelete (c : IdemCache) (h : String) : IdemCache :=
  c.filter (fun kv => ¬ kv.1 == h)

/-- TTL for idempotency records: 24 hours in milliseconds. -/
def TTL_MS : ℕ := 24 * 60 * 60 * 1000

/-- IdempotencyService.cacheResponse: stores a record keyed by the hash with
expiresAt = now + TTL.  (The setTimeout it schedules is modelled by invoking
cleanupExpired explicitly in runs; note the source schedules
cleanupExpired(idempotencyKey) — the client key, not the hash.) -/
def cacheResponse (c : IdemCache) (hash idempotencyKey operation : String)
    (requestData : Json) (response : ResponseVal) (now : ℕ) : IdemCache :=
  cacheSet c (hash, { key := idempotencyKey, operation := operation,
                      hash := hash, requestData := requestData,
                      response := response, createdAt := now,
                      expiresAt := now + TTL_MS })

/-- IdempotencyService.cleanupExpired: deletes the record stored under the
given hash when its expiry instant lies strictly in the past. -/
def cleanupExpired (c : IdemCache) (hash : String) (now : ℕ) : IdemCache :=
  match cacheGet c hash with
  | some record => if record.expiresAt < now then cacheDelete c hash else c
  | none => c

/-- Full system state: the wallet store, the append-only transaction log,
the idempotency cache and the fresh-id supply backing uuidv4. -/
structure SysState where
  wallets : Store
  txns : TxnLog
  cache : IdemCache
  fresh : ℕ
deriving DecidableEq, Repr

/-- IdempotencyService.processWithIdempotency: hash the request, return the
cached response on a hit with matching parameters (note: the source performs
no expiry check at lookup), throw DuplicateTransaction on a hit with
different parameters, otherwise execute the operation and cache successful
results only. -/
def processWithIdempotency (idempotencyKey operation : String)
    (requestData : Json) (now : ℕ)
    (fn : SysState → Except Err ResponseVal × SysState) (st : SysState) :
    Except Err ResponseVal × SysState :=
  let hash := generateHash idempotencyKey operation requestData
  match cacheGet st.cache hash with
  | some cached =>
    if ¬ requestDataMatches requestData cached.requestData then
      (.error (.duplicateTransaction idempotencyKey), st)
    else
      (.ok cached.response, st)
  | none =>
    match fn st with
    | (.ok response, st') =>
      (.ok response,
       { st' with cache := cacheResponse st'.cache hash idempotencyKey
                            operation requestData response now })
    | (.error e, st') => (.error e, st')

/-- WalletService.validateAmount: positive, at most 1,000,000, and at most
2 decimal places.  The string-based digit count of the source is modelled
arithmetically over the exact decimal rationals: more than 2 fractional
digits means 100 * amount is not an integer. -/
def validateAmount (amount : ℚ) : Option Err :=
  if amount ≤ 0 then
    some (.invalidTransactionAmount amount "Amount must be positive")
  else if amount > 1000000 then
    some (.invalidTransactionAmount amount "Amount cannot exceed 1000000")
  else if (amount * 100).den ≠ 1 then
    some (.invalidTransactionAmount amount "Amount cannot have more than 2 decimal places")
  else none

/-- TransactionService.createFundingTransaction: builds a FUNDING transaction
with no source wallet, status COMPLETED, and appends it to the log.  The
uuid and reference are drawn from the fresh-id supply (the exact reference
format is modelled separately by generateTransactionReference). -/
def createFundingTransaction (fresh : ℕ) (targetWalletId : String)
    (amount : ℚ) (currency : Currency) (now : ℕ) (log : TxnLog) :
    Except String (Transaction × TxnLog) := do
  let t ← Transaction.make fresh ("ref-" ++ toString fresh) .FUNDING none
            targetWalletId amount currency now
  let log' ← appendTransaction log t
  return (t, log')

/-- TransactionService.createTransferTransaction: builds a TRANSFER
transaction carrying the source wallet id and appends it to the log. -/
def createTransferTransaction (fresh : ℕ) (sourceWalletId targetWalletId : String)
    (amount : ℚ) (currency : Currency) (now : ℕ) (log : TxnLog) :
    Except String (Transaction × TxnLog) := do
  let t ← Transaction.make fresh ("ref-" ++ toString fresh) .TRANSFER
            (some sourceWalletId) targetWalletId amount currency now
  let log' ← appendTransaction log t
  return (t, log')

/-- WalletService.executeFunding: fetch the wallet (or throw NotFound), add
the amount on the in-memory entity, persist through one optimistic-locking
update — throwing ConcurrentModification immediately when it reports a
version conflict, without re-fetching or retrying — then append the FUNDING
transaction.  `env` is the interference other tasks may apply to the store
between the fetch and the update (id when the execution is sequential).
Thrown errors reach the caller after the catch block restores only the
in-memory entity, so the store keeps whatever was persisted before the
throw. -/
def executeFunding (walletId : String) (amount : ℚ) (now : ℕ)
    (env : Store → Store) (st : SysState) : Except Err ResponseVal × SysState :=
  match findById st.wallets walletId with
  | none => (.error (.walletNotFound walletId), st)
  | some wallet =>
    match wallet.fund amount now with
    | .error m => (.error (.entityError m), st)
    | .ok funded =>
      let s1 := env st.wallets
      match repoUpdate s1 funded wallet.version now with
      | .error m => (.error (.entityError m), { st with wallets := s1 })
      | .ok (updated, w', s1') =>
        if updated then
          match createFundingTransaction st.fresh walletId amount w'.currency
                  now st.txns with
          | .error m =>
            (.error (.entityError m),
             { st with wallets := s1', fresh := st.fresh + 1 })
          | .ok (_, log') =>
            (.ok (.fund (mapToWalletResponse w')),
             { st with wallets := s1', txns := log', fresh := st.fresh + 1 })
        else
          (.error (.concurrentModification "Wallet" walletId),
           { st with wallets := s1' })

/-- WalletService.fundWallet: validate the amount, then run executeFunding
under the idempotency guard with operation kind FUND_WALLET and parameters
(walletId, amount) — the object literal order of the source. -/
def fundWallet (walletId : String) (amount : ℚ) (idempotencyKey : String)
    (now : ℕ) (env : Store → Store) (st : SysState) :
    Except Err ResponseVal × SysState :=
  match validateAmount amount with
  | some e => (.error e, st)
  | none =>
    processWithIdempotency idempotencyKey "FUND_WALLET"
      (.obj (.cons "walletId" (.str walletId)
        (.cons "amount" (.num amount) .nil)))
      now (executeFunding walletId amount now env) st

/-- WalletService.rollbackSourceWallet: restore the original balance on the
in-memory entity, set its version to the post-deduction current version and
issue another optimistic update.  The boolean outcome of that update is
ignored, and a thrown error is caught and only logged — a failed rollback is
swallowed, never surfaced. -/
def rollbackSourceWallet (s : Store) (sourceWallet : Wallet)
    (originalBalance : ℚ) (currentVersion : ℕ) (now : ℕ) : Store :=
  let w := { sourceWallet with balance := originalBalance,
                               version := currentVersion }
  match repoUpdate s w currentVersion now with
  | .ok (_, _, s') => s'
  | .error _ => s

/-- WalletService.executeTransfer: phase 1 fetches both wallets (the batch
findByIds is inlined as its two per-id lookups) and validates existence and
balance; phase 2 deducts from the source, credits the target — each via a
version-checked update against the version seen at fetch time — rolls the
source back when the target update reports a conflict, and appends the
TRANSFER transaction only after both updates succeeded.  `env1, env2, env3`
are the interference other tasks may apply to the store before the source
update, the target update and the rollback update respectively (all id when
the execution is sequential).  The catch block only restores the in-memory
entities, so the store keeps whatever was persisted before a throw. -/
def executeTransfer (sourceWalletId targetWalletId : String) (amount : ℚ)
    (now : ℕ) (env1 env2 env3 : Store → Store) (st : SysState) :
    Except Err ResponseVal × SysState :=
  match findById st.wallets sourceWalletId with
  | none => (.error (.walletNotFound sourceWalletId), st)
  | some sourceWallet =>
    match findById st.wallets targetWalletId with
    | none => (.error (.walletNotFound targetWalletId), st)
    | some targetWallet =>
      if ¬ sourceWallet.hasSufficientBalance amount then
        (.error (.insufficientBalance sourceWalletId amount sourceWallet.balance), st)
      else
        match sourceWallet.deduct amount now with
        | .error m => (.error (.entityError m), st)
        | .ok srcDeducted =>
          let s1 := env1 st.wallets
          match repoUpdate s1 srcDeducted sourceWallet.version now with
          | .error m => (.error (.entityError m), { st with wallets := s1 })
          | .ok (sourceUpdated, srcW, s1') =>
            if ¬ sourceUpdated then
              (.error (.concurrentModification "Wallet" sourceWalletId),
               { st with wallets := s1' })
            else
              match targetWallet.fund amount now with
              | .error m => (.error (.entityError m), { st with wallets := s1' })
              | .ok tgtFunded =>
                let s2 := env2 s1'
                match repoUpdate s2 tgtFunded targetWallet.version now with
                | .error m => (.error (.entityError m), { st with wallets := s2 })
                | .ok (targetUpdated, tgtW, s2') =>
                  if ¬ targetUpdated then
                    let s3 := rollbackSourceWallet (env3 s2') srcW
                               sourceWallet.balance (sourceWallet.version + 1) now
                    (.error (.concurrentModification "Wallet" targetWalletId),
                     { st with wallets := s3 })
                  else
                    match createTransferTransaction st.fresh sourceWalletId
                            targetWalletId amount srcW.currency now st.txns with
                    | .error m =>
                      (.error (.entityError m),
                       { st with wallets := s2', fresh := st.fresh + 1 })
                    | .ok (txn, log') =>
                      (.ok (.transfer
                         { sourceWallet := mapToWalletResponse srcW,
                           targetWallet := mapToWalletResponse tgtW,
                           transaction := txn }),
                       { st with wallets := s2', txns := log',
                                 fresh := st.fresh + 1 })

/-- Maximum optimistic-locking retries of the transfer path. -/
def MAX_RETRY_ATTEMPTS : ℕ := 3

/-- Linear backoff before a retry: attempt * 10 ms. -/
def backoffMs (attempt : ℕ) : ℕ := attempt * 10

/-- WalletService.executeTransferWithRetry: run executeTransfer; when it
throws ConcurrentModification and attempts remain, sleep the linear backoff
and retry against the current state; otherwise rethrow.  `envs` supplies the
interference functions of each attempt; the returned list records the
backoff delays slept (the sleep has no state effect). -/
def executeTransferWithRetry (sourceWalletId targetWalletId : String)
    (amount : ℚ) (now : ℕ)
    (envs : ℕ → (Store → Store) × (Store → Store) × (Store → Store))
    (st : SysState) (attempt : ℕ) :
    Except Err ResponseVal × SysState × List ℕ :=
  let r := executeTransfer sourceWalletId targetWalletId amount now
             (envs attempt).1 (envs attempt).2.1 (envs attempt).2.2 st
  match r.1 with
  | .error (.concurrentModification _ _) =>
    if attempt < MAX_RETRY_ATTEMPTS then
      let rest := executeTransferWithRetry sourceWalletId targetWalletId
                    amount now envs r.2 (attempt + 1)
      (rest.1, rest.2.1, backoffMs attempt :: rest.2.2)
    else (r.1, r.2, [])
  | _ => (r.1, r.2, [])
termination_by MAX_RETRY_ATTEMPTS - attempt
decreasing_by simp only [MAX_RETRY_ATTEMPTS] at *; omega

/-- WalletService.transferFunds: validate the amount, reject self-transfers,
then run the retrying transfer under the idempotency guard with operation
kind TRANSFER_FUNDS and parameters (sourceWalletId, targetWalletId, amount)
— the object literal order of the source. -/
def transferFunds (sourceWalletId targetWalletId : String) (amount : ℚ)
    (idempotencyKey : String) (now : ℕ)
    (envs : ℕ → (Store → Store) × (Store → Store) × (Store → Store))
    (st : SysState) : Except Err ResponseVal × SysState :=
  match validateAmount amount with
  | some e => (.error e, st)
  | none =>
    if sourceWalletId == targetWalletId then
      (.error (.sameWalletTransfer sourceWalletId), st)
    else
      processWithIdempotency idempotencyKey "TRANSFER_FUNDS"
        (.obj (.cons "sourceWalletId" (.str sourceWalletId)
          (.cons "targetWalletId" (.str targetWalletId)
            (.cons "amount" (.num amount) .nil))))
        now
        (fun s =>
          let r := executeTransferWithRetry sourceWalletId targetWalletId
                     amount now envs s 1
          (r.1, r.2.1))
        st

/-- WalletService.createWallet: generate an id from the uuid supply, build
the entity through the validating constructor (currency defaulting handled
by the caller; initial balance defaults to 0 at the DTO layer) and persist
it through the repository, which throws AlreadyExists on an id collision. -/
def createWallet (currency : Currency) (initialBalance : ℚ) (now : ℕ)
    (st : SysState) : Except Err ResponseVal × SysState :=
  let walletId := "uuid-" ++ toString st.fresh
  match Wallet.make walletId currency initialBalance now with
  | .error m => (.error (.entityError m), st)
  | .ok w =>
    match repoCreate st.wallets w now with
    | .error m => (.error (.entityError m), st)
    | .ok none => (.error (.walletAlreadyExists walletId), st)
    | .ok (some s') =>
      (.ok (.fund (mapToWalletResponse w)),
       { st with wallets := s', fresh := st.fresh + 1 })

/-- One externally invocable operation of the core, with its wall-clock
instant. -/
inductive Op where
  | createWallet (currency : Currency) (initialBalance : ℚ) (t : ℕ)
  | fundWallet (walletId : String) (amount : ℚ) (key : String) (t : ℕ)
  | transferFunds (sourceId targetId : String) (amount : ℚ) (key : String) (t : ℕ)

/-- Sequential execution of one operation: each call runs to completion
before the next starts, so every interference function is the identity. -/
def runOp (op : Op) (st : SysState) : Except Err ResponseVal × SysState :=
  match op with
  | .createWallet c b t => createWallet c b t st
  | .fundWallet w a k t => fundWallet w a k t id st
  | .transferFunds s1 s2 a k t =>
    transferFunds s1 s2 a k t (fun _ => (id, id, id)) st

/-- Sequential execution of a list of operations. -/
def runOps (ops : List Op) (st : SysState) : SysState :=
  ops.foldl (fun s op => (runOp op s).2) st

/-- A wall-clock instant split into calendar fields, as consumed by
Date.prototype.toISOString. -/
structure DateTimeUTC where
  year : ℕ
  month : ℕ
  day : ℕ
  hour : ℕ
  minute : ℕ
  second : ℕ
  ms : ℕ
deriving DecidableEq, Repr

/-- String.prototype.padStart with the pad character 0: left-pads to the
requested length and never truncates. -/
def padStartZeros (len : ℕ) (s : String) : String :=
  if s.length < len then String.mk (List.replicate (len - s.length) '0') ++ s
  else s

/-- Date.prototype.toISOString: YYYY-MM-DDTHH:MM:SS.mmmZ with zero-padded
fields. -/
def toISOString (d : DateTimeUTC) : String :=
  padStartZeros 4 (toString d.year) ++ "-" ++ padStartZeros 2 (toString d.month)
    ++ "-" ++ padStartZeros 2 (toString d.day) ++ "T"
    ++ padStartZeros 2 (toString d.hour) ++ ":" ++ padStartZeros 2 (toString d.minute)
    ++ ":" ++ padStartZeros 2 (toString d.second) ++ "."
    ++ padStartZeros 3 (toString d.ms) ++ "Z"

/-- The replace(/[-:T.Z]/g, '') step of the timestamp component. -/
def stripTimeSeps (s : String) : String :=
  String.mk (s.data.filter (fun c =>
    ¬ (c = '-' ∨ c = ':' ∨ c = 'T' ∨ c = '.' ∨ c = 'Z')))

/-- The timestamp component: ISO string with separators removed, truncated
to 14 characters (YYYYMMDDHHMMSS); substring(0, 14) acts on the character
sequence. -/
def timestampComponent (d : DateTimeUTC) : String :=
  String.mk ((stripTimeSeps (toISOString d)).data.take 14)

/-- The base-36 digit alphabet of Number.prototype.toString(36). -/
def base36Char (n : ℕ) : Char :=
  "0123456789abcdefghijklmnopqrstuvwxyz".data.getD n '0'

/-- The random component: Math.random().toString(36).substring(2, 6)
.toUpperCase().  The input is the list of base-36 fractional digits the
rendering produces; substring(2, 6) keeps at most the first four of them
(fewer when the rendered expansion is shorter); toUpperCase acts per
character. -/
def randomComponent (ds : List ℕ) : String :=
  String.mk (((ds.take 4).map base36Char).map Char.toUpper)

/-- TransactionService.generateTransactionReference: TXN-, the 14-character
timestamp, the counter advanced by transactionCounter = (counter % 1000) + 1
rendered through String(...).padStart(3, '0'), and the random suffix.
Returns the reference together with the new counter state. -/
def generateTransactionReference (d : DateTimeUTC) (counter : ℕ)
    (rand : List ℕ) : String × ℕ :=
  let timestamp := timestampComponent d
  let next := counter % 1000 + 1
  let counterStr := padStartZeros 3 (toString next)
  ("TXN-" ++ timestamp ++ "-" ++ counterStr ++ "-" ++ randomComponent rand, next)

/-- Split a character sequence at every dash. -/
def splitAtDash : List Char → List Char → List (List Char)
  | [], acc => [acc.reverse]
  | c :: cs, acc =>
    if c = '-' then acc.reverse :: splitAtDash cs [] else splitAtDash cs (c :: acc)

/-- The reference pattern of the spec (and of the repository's own test
suite): TXN, dash, 14 digits, dash, 3 digits, dash, 4 uppercase
alphanumerics. -/
def matchesReferencePattern (s : String) : Bool :=
  match splitAtDash s.data [] with
  | [p, ts, ctr, rnd] =>
    p == "TXN".data && ts.length == 14 && ts.all Char.isDigit &&
    ctr.length == 3 && ctr.all Char.isDigit &&
    rnd.length == 4 &&
    rnd.all (fun c => c.isDigit || ('A' ≤ c && c ≤ 'Z'))
  | _ => false

/-- Every stored balance is non-negative. -/
def InvStore (s : Store) : Prop := ∀ w ∈ s, 0 ≤ w.balance

/-- All transaction ids already in the log are strictly below the fresh-id
supply (the invariant uuid generation maintains). -/
def TxnIdsFresh (st : SysState) : Prop := ∀ t ∈ st.txns, t.id < st.fresh

/- Store lemmas. -/

lemma findById_id {s : Store} {i : String} {w : Wallet}
    (h : findById s i = some w) : w.id = i := by
  have h' := List.find?_some h
  simpa using h'

lemma findById_mem {s : Store} {i : String} {w : Wallet}
    (h : findById s i = some w) : w ∈ s :=
  List.mem_of_find?_eq_some h

lemma findById_storeSet_self (s : Store) (c : Wallet) :
    findById (storeSet s c) c.id = some c := by
  induction s with
  | nil => simp [storeSet, findById]
  | cons x xs ih =>
    by_cases hx : x.id = c.id
    · simp [storeSet, findById, hx]
    · simp only [storeSet, findById] at ih ⊢
      rw [if_neg (by simpa using hx)]
      rw [List.find?_cons_of_neg _ (by simpa using hx)]
      exact ih

lemma findById_storeSet_ne {i : String} (s : Store) (c : Wallet)
    (h : i ≠ c.id) : findById (storeSet s c) i = findById s i := by
  have hci : (c.id == i) = false := by
    simpa using fun hh => h hh.symm
  induction s with
  | nil => simp [storeSet, findById, hci]
  | cons x xs ih =>
    by_cases hx : x.id = c.id
    · simp only [storeSet, findById]
      rw [if_pos (by simpa using hx)]
      have hxi : (x.id == i) = false := by
        rw [hx]; exact hci
      simp only [List.find?_cons, hci, hxi]
    · simp only [storeSet, findById] at ih ⊢
      rw [if_neg (by simpa using hx)]
      by_cases hxi : x.id = i
      · simp [List.find?_cons, hxi]
      · have hxi' : (x.id == i) = false := by simpa using hxi
        simp only [List.find?_cons, hxi']
        exact ih

lemma mem_storeSet {x : Wallet} {s : Store} {c : Wallet}
    (h : x ∈ storeSet s c) : x = c ∨ x ∈ s := by
  induction s with
  | nil => simpa [storeSet] using h
  | cons y ys ih =>
    simp only [storeSet] at h
    split at h
    · rcases List.mem_cons.1 h with h | h
      · exact .inl h
      · exact .inr (List.mem_cons_of_mem _ h)
    · rcases List.mem_cons.1 h with h | h
      · exact .inr (h ▸ List.mem_cons_self _ _)
      · rcases ih h with h' | h'
        · exact .inl h'
        · exact .inr (List.mem_cons_of_mem _ h')

lemma sumBalances_storeSet {s : Store} {c w : Wallet}
    (h : findById s c.id = some w) :
    sumBalances (storeSet s c) = sumBalances s - w.balance + c.balance := by
  induction s with
  | nil => simp [findById] at h
  | cons x xs ih =>
    by_cases hx : x.id = c.id
    · have hw : w = x := by
        simp only [findById] at h
        rw [List.find?_cons_of_pos _ (by simpa using hx)] at h
        exact (Option.some.injEq _ _ ▸ h).symm
      subst hw
      simp only [storeSet]
      rw [if_pos (by simpa using hx)]
      simp only [sumBalances, List.map_cons, List.sum_cons]
      ring
    · have h' : findById xs c.id = some w := by
        simp only [findById] at h ⊢
        rwa [List.find?_cons_of_neg _ (by simpa using hx)] at h
      simp only [storeSet]
      rw [if_neg (by simpa using hx)]
      simp only [sumBalances, List.map_cons, List.sum_cons] at ih ⊢
      rw [ih h']
      ring

/- Repository update characterization. -/

/-- The mutated argument wallet after a successful update. -/
def updVal (w : Wallet) (expectedVersion now : ℕ) : Wallet :=
  { w with version := expectedVersion + 1, updatedAt := now }

lemma repoUpdate_not_found {s : Store} {w : Wallet} {ev now : ℕ}
    (h : findById s w.id = none) :
    repoUpdate s w ev now = .ok (false, w, s) := by
  simp [repoUpdate, h]

lemma repoUpdate_version_mismatch {s : Store} {w ex : Wallet} {ev now : ℕ}
    (h : findById s w.id = some ex) (hv : ex.version ≠ ev) :
    repoUpdate s w ev now = .ok (false, w, s) := by
  simp [repoUpdate, h, hv]

lemma repoUpdate_success {s : Store} {w ex : Wallet} {ev : ℕ} (now : ℕ)
    (h : findById s w.id = some ex) (hv : ex.version = ev)
    (hb : 0 ≤ w.balance) :
    repoUpdate s w ev now
      = .ok (true, updVal w ev now, storeSet s (cloneVal (updVal w ev now) now)) := by
  have hb0 : ¬ (w.balance < 0) := not_lt.2 hb
  simp [repoUpdate, h, hv, cloneWallet, updVal, cloneVal, hb0, Except.map]

lemma repoUpdate_false_store {s s2 : Store} {w w2 : Wallet} {ev now : ℕ}
    (h : repoUpdate s w ev now = .ok (false, w2, s2)) : s2 = s ∧ w2 = w := by
  unfold repoUpdate at h
  cases hf : findById s w.id with
  | none =>
    simp only [hf] at h
    simp only [Except.ok.injEq, Prod.mk.injEq, eq_self_iff_true, true_and] at h
    exact ⟨h.2.symm, h.1.symm⟩
  | some ex =>
    simp only [hf] at h
    by_cases hv : ex.version = ev
    · rw [if_neg (by simp [hv])] at h
      unfold cloneWallet at h
      split at h
      · simp [Except.map] at h
      · simp [Except.map] at h
    · rw [if_pos hv] at h
      simp only [Except.ok.injEq, Prod.mk.injEq, eq_self_iff_true, true_and] at h
      exact ⟨h.2.symm, h.1.symm⟩

lemma repoUpdate_true_inv {s s2 : Store} {w w2 : Wallet} {ev now : ℕ}
    (h : repoUpdate s w ev now = .ok (true, w2, s2)) :
    ∃ ex, findById s w.id = some ex ∧ ex.version = ev ∧
      w2 = updVal w ev now ∧
      s2 = storeSet s (cloneVal (updVal w ev now) now) := by
  unfold repoUpdate at h
  cases hf : findById s w.id with
  | none =>
    simp only [hf] at h
    simp at h
  | some ex =>
    simp only [hf] at h
    by_cases hv : ex.version = ev
    · refine ⟨ex, rfl, hv, ?_⟩
      rw [if_neg (by simp [hv])] at h
      unfold cloneWallet at h
      split at h
      · simp [Except.map] at h
      · simp only [Except.map, Except.ok.injEq, Prod.mk.injEq] at h
        refine ⟨by rw [← h.2.1]; rfl, ?_⟩
        rw [← h.2.2]
        rfl
    · rw [if_pos hv] at h
      simp at h

/- Sequences of optimistic-locking updates. -/

/-- One invocation of the repository's update. -/
structure UpdReq where
  wallet : Wallet
  expectedVersion : ℕ
  now : ℕ

/-- Run a sequence of update invocations against the store (a thrown update
leaves the stored state unchanged). -/
def runUpdates : List UpdReq → Store → Store
  | [], s => s
  | r :: rs, s =>
    match repoUpdate s r.wallet r.expectedVersion r.now with
    | .ok (_, _, s') => runUpdates rs s'
    | .error _ => runUpdates rs s

/-- Number of invocations in the sequence that return true for the wallet
with the given id. -/
def countSuccessesFor (i : String) : List UpdReq → Store → ℕ
  | [], _ => 0
  | r :: rs, s =>
    match repoUpdate s r.wallet r.expectedVersion r.now with
    | .ok (ok1, _, s') =>
      (if ok1 && (r.wallet.id == i) then 1 else 0) + countSuccessesFor i rs s'
    | .error _ => countSuccessesFor i rs s

lemma version_after_update {s s2 : Store} {w w2 : Wallet} {b : Bool}
    {ev nw : ℕ} {i : String} {v : ℕ}
    (h : repoUpdate s w ev nw = .ok (b, w2, s2))
    (hv : (findById s i).map Wallet.version = some v) :
    (findById s2 i).map Wallet.version
      = some (v + if b && (w.id == i) then 1 else 0) := by
  cases b with
  | false =>
    obtain ⟨hs, -⟩ := repoUpdate_false_store h
    simpa [hs] using hv
  | true =>
    obtain ⟨ex, hex, hexv, -, hs2⟩ := repoUpdate_true_inv h
    by_cases hwi : w.id = i
    · subst hwi
      cases hfi : findById s w.id with
      | none => rw [hfi] at hv; simp at hv
      | some wi =>
        rw [hfi] at hex hv
        have hwiex : wi = ex := by injection hex
        have hvv : ev = v := by
          subst hwiex
          simp only [Option.map_some'] at hv
          injection hv with hv'
          omega
        have hid : (cloneVal (updVal w ev nw) nw).id = w.id := rfl
        rw [hs2]
        rw [← hid, findById_storeSet_self]
        simp [cloneVal, updVal, hvv]
    · have hne : i ≠ (cloneVal (updVal w ev nw) nw).id := by
        simpa [cloneVal, updVal] using fun hh => hwi hh.symm
      rw [hs2, findById_storeSet_ne _ _ hne]
      have : (w.id == i) = false := by simpa using hwi
      simpa [this] using hv

lemma version_after_runUpdates (us : List UpdReq) :
    ∀ (s : Store) (i : String) (v : ℕ),
      (findById s i).map Wallet.version = some v →
      (findById (runUpdates us s) i).map Wallet.version
        = some (v + countSuccessesFor i us s) := by
  induction us with
  | nil => intro s i v hv; simpa [runUpdates, countSuccessesFor] using hv
  | cons r rs ih =>
    intro s i v hv
    simp only [runUpdates, countSuccessesFor]
    cases hr : repoUpdate s r.wallet r.expectedVersion r.now with
    | error m =>
      simp only [hr]
      exact ih s i v hv
    | ok res =>
      obtain ⟨b, w2, s2⟩ := res
      simp only [hr]
      have hstep := version_after_update hr hv
      have h2 := ih s2 i _ hstep
      rw [h2]
      congr 1
      omega

/-- Fixture: a stored wallet at version 1 with balance 0. -/
def exW : Wallet :=
  { id := "a", currency := .USD, balance := 0, version := 1,
    createdAt := 0, updatedAt := 0 }

/-- Fixture: an update argument for the same id carrying a negative
balance. -/
def wNeg : Wallet :=
  { id := "a", currency := .USD, balance := -1, version := 1,
    createdAt := 0, updatedAt := 0 }

/-- C3 counterexample: the contract as stated fails for a wallet argument
with negative balance — the store holds a wallet with the expected version,
yet update does not return true (nor false): the defensive clone's
constructor validation throws. -/
theorem update_contract_counterexample :
    repoUpdate [exW] wNeg 1 5 = .error "Wallet balance cannot be negative" ∧
    (findById [exW] wNeg.id).map Wallet.version = some 1 := by
  constructor <;> rfl

/-- C3 (amended): for every wallet argument with non-negative balance,
update succeeds — returning true and storing a clone whose version is
exactly expectedVersion + 1 with a refreshed update timestamp — precisely
when a wallet with that id is stored at the expected version; otherwise it
returns false and leaves the store untouched; and after any sequence of
updates a wallet's stored version is its initial version plus the number of
successful updates naming its id. -/
theorem update_contract :
    (∀ (s : Store) (w : Wallet) (ev nw : ℕ), 0 ≤ w.balance →
      (∃ ex, findById s w.id = some ex ∧ ex.version = ev) →
      ∃ c, repoUpdate s w ev nw = .ok (true, updVal w ev nw, storeSet s c) ∧
        findById (storeSet s c) w.id = some c ∧
        c.version = ev + 1 ∧ c.updatedAt = nw) ∧
    (∀ (s : Store) (w : Wallet) (ev nw : ℕ),
      ¬ (∃ ex, findById s w.id = some ex ∧ ex.version = ev) →
      repoUpdate s w ev nw = .ok (false, w, s)) ∧
    (∀ (us : List UpdReq) (s : Store) (i : String) (v : ℕ),
      (findById s i).map Wallet.version = some v →
      (findById (runUpdates us s) i).map Wallet.version
        = some (v + countSuccessesFor i us s)) := by
  refine ⟨?_, ?_, ?_⟩
  · intro s w ev nw hb ⟨ex, hex, hev⟩
    refine ⟨cloneVal (updVal w ev nw) nw, repoUpdate_success nw hex hev hb, ?_, rfl, rfl⟩
    have hid : (cloneVal (updVal w ev nw) nw).id = w.id := rfl
    rw [← hid, findById_storeSet_self]
  · intro s w ev nw hno
    cases hf : findById s w.id with
    | none => exact repoUpdate_not_found hf
    | some ex =>
      refine repoUpdate_version_mismatch hf (fun hv => hno ⟨ex, hf, hv⟩)
  · exact fun us => version_after_runUpdates us

/-- C3 witness: the amended contract applied to a stored wallet at version 1
with a matching update. -/
theorem update_contract_witness :
    ∃ c, repoUpdate [exW] exW 1 5 = .ok (true, updVal exW 1 5, storeSet [exW] c) ∧
      findById (storeSet [exW] c) exW.id = some c ∧
      c.version = 2 ∧ c.updatedAt = 5 :=
  update_contract.1 [exW] exW 1 5 (by decide) ⟨exW, by decide, by decide⟩

/- Non-negativity invariant machinery. -/

lemma InvStore_storeSet {s : Store} {c : Wallet}
    (h : InvStore s) (hc : 0 ≤ c.balance) : InvStore (storeSet s c) := by
  intro x hx
  rcases mem_storeSet hx with h' | h'
  · exact h' ▸ hc
  · exact h x h'

lemma InvStore_of_repoUpdate {s s2 : Store} {w w2 : Wallet} {b : Bool}
    {ev nw : ℕ} (h : repoUpdate s w ev nw = .ok (b, w2, s2))
    (hs : InvStore s) (hw : 0 ≤ w.balance) : InvStore s2 := by
  cases b with
  | false => exact (repoUpdate_false_store h).1 ▸ hs
  | true =>
    obtain ⟨ex, -, -, -, hs2⟩ := repoUpdate_true_inv h
    subst hs2
    exact InvStore_storeSet hs (by simpa [cloneVal, updVal] using hw)

lemma rollbackSourceWallet_inv {s : Store} {w : Wallet} {b : ℚ} {v nw : ℕ}
    (hs : InvStore s) (hb : 0 ≤ b) :
    InvStore (rollbackSourceWallet s w b v nw) := by
  cases hr : repoUpdate s { w with balance := b, version := v } v nw with
  | error m =>
    simp only [rollbackSourceWallet, hr]
    exact hs
  | ok res =>
    obtain ⟨bk, w2, s2⟩ := res
    simp only [rollbackSourceWallet, hr]
    exact InvStore_of_repoUpdate hr hs (by simpa using hb)

lemma executeFunding_inv {wid : String} {a : ℚ} {now : ℕ}
    {env : Store → Store} {st : SysState}
    (hInv : InvStore st.wallets) (henv : ∀ s, InvStore s → InvStore (env s)) :
    InvStore (executeFunding wid a now env st).2.wallets := by
  unfold executeFunding
  cases hf : findById st.wallets wid with
  | none => simpa using hInv
  | some wallet =>
    simp only [hf]
    by_cases ha : a ≤ 0
    · simp only [Wallet.fund, if_pos ha]
      exact hInv
    · simp only [Wallet.fund, if_neg ha]
      have ha' : (0 : ℚ) < a := not_le.1 ha
      have hwb : 0 ≤ wallet.balance := hInv wallet (findById_mem hf)
      have henvInv : InvStore (env st.wallets) := henv _ hInv
      cases hu : repoUpdate (env st.wallets)
          { wallet with balance := wallet.balance + a, updatedAt := now,
                        version := wallet.version + 1 } wallet.version now with
      | error m => simpa [hu] using henvInv
      | ok res =>
        obtain ⟨b, w', s1'⟩ := res
        have hs1' : InvStore s1' :=
          InvStore_of_repoUpdate hu henvInv (by simp; linarith)
        cases b with
        | false =>
          simpa [hu] using hs1'
        | true =>
          simp only [hu]
          cases hc : createFundingTransaction st.fresh wid a w'.currency now st.txns with
          | error m => simpa [hc] using hs1'
          | ok p => simpa [hc] using hs1'

lemma executeTransfer_inv {src tgt : String} {a : ℚ} {now : ℕ}
    {env1 env2 env3 : Store → Store} {st : SysState}
    (hInv : InvStore st.wallets)
    (h1 : ∀ s, InvStore s → InvStore (env1 s))
    (h2 : ∀ s, InvStore s → InvStore (env2 s))
    (h3 : ∀ s, InvStore s → InvStore (env3 s)) :
    InvStore (executeTransfer src tgt a now env1 env2 env3 st).2.wallets := by
  unfold executeTransfer
  cases hs : findById st.wallets src with
  | none => simpa using hInv
  | some sw =>
    simp only [hs]
    cases ht : findById st.wallets tgt with
    | none => simpa using hInv
    | some tw =>
      simp only [ht]
      by_cases hsuff : sw.hasSufficientBalance a
      · rw [if_neg (by simpa using hsuff)]
        by_cases ha : a ≤ 0
        · simp only [Wallet.deduct, if_pos ha]
          exact hInv
        · simp only [Wallet.deduct, if_neg ha]
          by_cases hlt : sw.balance < a
          · simp only [if_pos hlt]
            exact hInv
          · simp only [if_neg hlt]
            have hI1 : InvStore (env1 st.wallets) := h1 _ hInv
            have ha' : (0 : ℚ) < a := not_le.1 ha
            have hge : a ≤ sw.balance := not_lt.1 hlt
            cases hu1 : repoUpdate (env1 st.wallets)
                { sw with balance := sw.balance - a, updatedAt := now,
                          version := sw.version + 1 } sw.version now with
            | error m => simpa [hu1] using hI1
            | ok res =>
              obtain ⟨b1, srcW, s1'⟩ := res
              have hs1' : InvStore s1' :=
                InvStore_of_repoUpdate hu1 hI1 (by simp; linarith)
              cases b1 with
              | false => simpa [hu1] using hs1'
              | true =>
                simp only [hu1]
                rw [if_neg (by simp)]
                simp only [Wallet.fund, if_neg ha]
                have hI2 : InvStore (env2 s1') := h2 _ hs1'
                have htb : 0 ≤ tw.balance := hInv tw (findById_mem ht)
                cases hu2 : repoUpdate (env2 s1')
                    { tw with balance := tw.balance + a, updatedAt := now,
                              version := tw.version + 1 } tw.version now with
                | error m => simpa [hu2] using hI2
                | ok res2 =>
                  obtain ⟨b2, tgtW, s2'⟩ := res2
                  have hs2' : InvStore s2' :=
                    InvStore_of_repoUpdate hu2 hI2 (by simp; linarith)
                  cases b2 with
                  | false =>
                    simp only [hu2]
                    rw [if_pos (by simp)]
                    exact rollbackSourceWallet_inv (h3 _ hs2')
                      (hInv sw (findById_mem hs))
                  | true =>
                    simp only [hu2]
                    rw [if_neg (by simp)]
                    cases hc : createTransferTransaction st.fresh src tgt a
                        srcW.currency now st.txns with
                    | error m => simpa [hc] using hs2'
                    | ok p =>
                      obtain ⟨txn, log'⟩ := p
                      simpa [hc] using hs2'
      · rw [if_pos (by simpa using hsuff)]
        exact hInv

/-- The state the idempotency guard leaves behind is either the input state
(cache hit or duplicate error), or the operation's output state with only
the cache field possibly rewritten. -/
lemma processWithIdempotency_state (idempotencyKey operation : String)
    (requestData : Json) (now : ℕ)
    (fn : SysState → Except Err ResponseVal × SysState) (st : SysState) :
    (processWithIdempotency idempotencyKey operation requestData now fn st).2 = st ∨
    ∃ c, (processWithIdempotency idempotencyKey operation requestData now fn st).2
          = { (fn st).2 with cache := c } := by
  simp only [processWithIdempotency]
  cases hc : cacheGet st.cache (generateHash idempotencyKey operation requestData) with
  | some cached =>
    simp only [hc]
    left
    split <;> rfl
  | none =>
    simp only [hc]
    cases hf : fn st with
    | mk r st' =>
      simp only [hf]
      cases r with
      | ok v =>
        refine .inr ⟨cacheResponse st'.cache
          (generateHash idempotencyKey operation requestData) idempotencyKey
          operation requestData v now, ?_⟩
        simp [hf]
      | error e => exact .inr ⟨st'.cache, by simp [hf]⟩

/-- executeTransferWithRetry preserves any state predicate that every
attempt's executeTransfer preserves. -/
lemma executeTransferWithRetry_pres (P : SysState → Prop)
    (src tgt : String) (a : ℚ) (now : ℕ)
    (envs : ℕ → (Store → Store) × (Store → Store) × (Store → Store))
    (hstep : ∀ k st, P st →
      P (executeTransfer src tgt a now (envs k).1 (envs k).2.1 (envs k).2.2 st).2) :
    ∀ fuel attempt st, MAX_RETRY_ATTEMPTS - attempt ≤ fuel → P st →
      P (executeTransferWithRetry src tgt a now envs st attempt).2.1 := by
  intro fuel
  induction fuel with
  | zero =>
    intro attempt st hle hP
    have hge : ¬ attempt < MAX_RETRY_ATTEMPTS := by omega
    unfold executeTransferWithRetry
    simp only [if_neg hge]
    split <;> exact hstep attempt st hP
  | succ n ih =>
    intro attempt st hle hP
    unfold executeTransferWithRetry
    by_cases hlt : attempt < MAX_RETRY_ATTEMPTS
    · simp only [if_pos hlt]
      split
      · exact ih (attempt + 1) _ (by omega) (hstep attempt st hP)
      · exact hstep attempt st hP
    · simp only [if_neg hlt]
      split <;> exact hstep attempt st hP

lemma transferFunds_inv {src tgt : String} {a : ℚ} {key : String} {now : ℕ}
    {st : SysState} (hInv : InvStore st.wallets) :
    InvStore (transferFunds src tgt a key now (fun _ => (id, id, id)) st).2.wallets := by
  unfold transferFunds
  cases hv : validateAmount a with
  | some e => exact hInv
  | none =>
    simp only [hv]
    by_cases hself : src == tgt
    · rw [if_pos hself]
      exact hInv
    · rw [if_neg hself]
      rcases processWithIdempotency_state key "TRANSFER_FUNDS" _ now
          (fun s => ((executeTransferWithRetry src tgt a now (fun _ => (id, id, id)) s 1).1,
                     (executeTransferWithRetry src tgt a now (fun _ => (id, id, id)) s 1).2.1)) st
        with h | ⟨c, h⟩
      · rw [h]; exact hInv
      · rw [h]
        exact executeTransferWithRetry_pres (fun s => InvStore s.wallets) src tgt a now _
          (fun k s hP => executeTransfer_inv hP (fun _ h => h) (fun _ h => h) (fun _ h => h))
          (MAX_RETRY_ATTEMPTS) 1 st (by omega) hInv

lemma fundWallet_inv {wid : String} {a : ℚ} {key : String} {now : ℕ}
    {st : SysState} (hInv : InvStore st.wallets) :
    InvStore (fundWallet wid a key now id st).2.wallets := by
  unfold fundWallet
  cases hv : validateAmount a with
  | some e => exact hInv
  | none =>
    rcases processWithIdempotency_state key "FUND_WALLET" _ now
        (executeFunding wid a now id) st with h | ⟨c, h⟩
    · rw [h]; exact hInv
    · rw [h]
      exact executeFunding_inv hInv (fun _ h => h)

lemma createWallet_inv {c : Currency} {b : ℚ} {now : ℕ} {st : SysState}
    (hInv : InvStore st.wallets) :
    InvStore (createWallet c b now st).2.wallets := by
  unfold createWallet
  by_cases hb : b < 0
  · simp only [Wallet.make, if_pos hb]
    exact hInv
  · simp only [Wallet.make, if_neg hb]
    cases hcr : repoCreate st.wallets
        { id := "uuid-" ++ toString st.fresh, currency := c, balance := b,
          version := 1, createdAt := now, updatedAt := now } now with
    | error m => simpa [hcr] using hInv
    | ok o =>
      cases o with
      | none => simpa [hcr] using hInv
      | some s' =>
        simp only [hcr]
        unfold repoCreate at hcr
        cases hf : findById st.wallets ("uuid-" ++ toString st.fresh) with
        | some x => simp only [hf] at hcr; simp at hcr
        | none =>
          simp only [hf] at hcr
          unfold cloneWallet at hcr
          rw [if_neg (by simpa using hb)] at hcr
          simp only [Except.map, Except.ok.injEq, Option.some.injEq] at hcr
          intro x hx
          rw [← hcr] at hx
          rcases mem_storeSet hx with h' | h'
          · rw [h']
            simpa [cloneVal] using not_lt.1 hb
          · exact hInv x h'

/-- The stored clone written for the source wallet by a sequential
transfer. -/
def srcClone (sw : Wallet) (a : ℚ) (now : ℕ) : Wallet :=
  { id := sw.id, currency := sw.currency, balance := sw.balance - a,
    version := sw.version + 1, createdAt := now, updatedAt := now }

/-- The stored clone written for the target wallet by a sequential
transfer. -/
def tgtClone (tw : Wallet) (a : ℚ) (now : ℕ) : Wallet :=
  { id := tw.id, currency := tw.currency, balance := tw.balance + a,
    version := tw.version + 1, createdAt := now, updatedAt := now }

/-- The TRANSFER transaction appended by a sequential transfer. -/
def transferTxn (fresh : ℕ) (src tgt : String) (a : ℚ) (cur : Currency)
    (now : ℕ) : Transaction :=
  { id := fresh, reference := "ref-" ++ toString fresh, type := .TRANSFER,
    sourceWalletId := some src, targetWalletId := tgt, amount := a,
    currency := cur, status := .COMPLETED, createdAt := now, updatedAt := now }

/-- Characterization of a sequential (identity-interference) transfer over a
well-formed state: it either fails leaving the state untouched, or both
versioned updates succeed and the final state is the two clone writes plus
the appended transaction. -/
lemma executeTransfer_id_cases (src tgt : String) (a : ℚ) (now : ℕ)
    (st : SysState) (hInv : InvStore st.wallets) (hFresh : TxnIdsFresh st)
    (hne : src ≠ tgt) :
    (∃ e, executeTransfer src tgt a now id id id st = (.error e, st)) ∨
    (∃ sw tw,
      findById st.wallets src = some sw ∧
      findById st.wallets tgt = some tw ∧
      a ≤ sw.balance ∧ 0 < a ∧
      executeTransfer src tgt a now id id id st =
        (.ok (.transfer
           { sourceWallet := mapToWalletResponse
               { sw with balance := sw.balance - a, updatedAt := now,
                         version := sw.version + 1 },
             targetWallet := mapToWalletResponse
               { tw with balance := tw.balance + a, updatedAt := now,
                         version := tw.version + 1 },
             transaction := transferTxn st.fresh src tgt a sw.currency now }),
         { st with
             wallets := storeSet (storeSet st.wallets (srcClone sw a now))
                          (tgtClone tw a now),
             txns := st.txns ++ [transferTxn st.fresh src tgt a sw.currency now],
             fresh := st.fresh + 1 })) := by
  cases hs : findById st.wallets src with
  | none =>
    exact .inl ⟨.walletNotFound src, by simp [executeTransfer, hs]⟩
  | some sw =>
    have hsid : sw.id = src := findById_id hs
    cases ht : findById st.wallets tgt with
    | none =>
      exact .inl ⟨.walletNotFound tgt, by simp [executeTransfer, hs, ht]⟩
    | some tw =>
      have htid : tw.id = tgt := findById_id ht
      by_cases hsuff : a ≤ sw.balance
      · by_cases ha : a ≤ 0
        · refine .inl ⟨.entityError "Deduct amount must be positive", ?_⟩
          simp only [executeTransfer, hs, ht]
          rw [if_neg (by simp [Wallet.hasSufficientBalance, hsuff])]
          simp [Wallet.deduct, if_pos ha]
        · have ha' : (0 : ℚ) < a := not_le.1 ha
          have hlt : ¬ (sw.balance < a) := not_lt.2 hsuff
          have hfind1 : findById st.wallets
              ({ sw with balance := sw.balance - a, updatedAt := now,
                         version := sw.version + 1 } : Wallet).id = some sw := by
            show findById st.wallets sw.id = some sw
            rw [hsid]
            exact hs
          have hu1 := repoUpdate_success now hfind1 rfl
            (by simp; linarith)
          have hcSid : (cloneVal (updVal
              { sw with balance := sw.balance - a, updatedAt := now,
                        version := sw.version + 1 } sw.version now) now).id = sw.id := rfl
          have hfind2 : findById (storeSet st.wallets (cloneVal (updVal
              { sw with balance := sw.balance - a, updatedAt := now,
                        version := sw.version + 1 } sw.version now) now))
              ({ tw with balance := tw.balance + a, updatedAt := now,
                         version := tw.version + 1 } : Wallet).id = some tw := by
            have hx : ({ tw with
                balance := tw.balance + a
                updatedAt := now
                version := tw.version + 1 } : Wallet).id = tgt := htid
            rw [hx, findById_storeSet_ne _ _ (by rw [hcSid, hsid]; exact hne.symm)]
            exact ht
          have hu2 := repoUpdate_success now hfind2 rfl
            (by simp; have := hInv tw (findById_mem ht); linarith)
          have hmk : Transaction.make st.fresh ("ref-" ++ toString st.fresh)
              .TRANSFER (some src) tgt a sw.currency now
              = .ok (transferTxn st.fresh src tgt a sw.currency now) := by
            simp [Transaction.make, transferTxn, ha]
          have happ : appendTransaction st.txns
              (transferTxn st.fresh src tgt a sw.currency now)
              = .ok (st.txns ++ [transferTxn st.fresh src tgt a sw.currency now]) := by
            unfold appendTransaction
            rw [if_neg ?hno]
            case hno =>
              simp only [List.any_eq_true, not_exists]
              intro t
              rw [not_and]
              intro htmem
              have := hFresh t htmem
              simp [transferTxn]
              omega
          have key : executeTransfer src tgt a now id id id st =
              (.ok (.transfer
                 { sourceWallet := mapToWalletResponse
                     { sw with balance := sw.balance - a, updatedAt := now,
                               version := sw.version + 1 },
                   targetWallet := mapToWalletResponse
                     { tw with balance := tw.balance + a, updatedAt := now,
                               version := tw.version + 1 },
                   transaction := transferTxn st.fresh src tgt a sw.currency now }),
               { st with
                   wallets := storeSet (storeSet st.wallets (srcClone sw a now))
                                (tgtClone tw a now),
                   txns := st.txns ++ [transferTxn st.fresh src tgt a sw.currency now],
                   fresh := st.fresh + 1 }) := by
            simp only [executeTransfer, hs, ht]
            rw [if_neg (by simp [Wallet.hasSufficientBalance, hsuff])]
            simp only [Wallet.deduct, if_neg ha, if_neg hlt, id_eq]
            simp only [hu1]
            rw [if_neg (by simp)]
            simp only [Wallet.fund, if_neg ha, id_eq]
            simp only [hu2]
            rw [if_neg (by simp)]
            simp only [createTransferTransaction, bind, Except.bind, pure,
                       Except.pure, hmk, happ]
            simp only [mapToWalletResponse, srcClone, tgtClone, transferTxn,
                       cloneVal, updVal]
          exact .inr ⟨sw, tw, rfl, rfl, hsuff, ha', key⟩
      · refine .inl ⟨.insufficientBalance src a sw.balance, ?_⟩
        simp only [executeTransfer, hs, ht]
        rw [if_pos (by simp [Wallet.hasSufficientBalance, hsuff])]

lemma executeTransfer_id_fresh (src tgt : String) (a : ℚ) (now : ℕ)
    (st : SysState) (hInv : InvStore st.wallets) (hFresh : TxnIdsFresh st)
    (hne : src ≠ tgt) :
    TxnIdsFresh (executeTransfer src tgt a now id id id st).2 := by
  rcases executeTransfer_id_cases src tgt a now st hInv hFresh hne with
    ⟨e, he⟩ | ⟨sw, tw, hs, ht, hsb, hapos, hok⟩
  · rw [he]; exact hFresh
  · rw [hok]
    intro t htm
    rcases List.mem_append.1 htm with h' | h'
    · have := hFresh t h'
      simp only []
      omega
    · have : t = transferTxn st.fresh src tgt a sw.currency now := by
        simpa using h'
      rw [this]
      simp [transferTxn]

lemma executeTransfer_id_sum (src tgt : String) (a : ℚ) (now : ℕ)
    (st : SysState) (hInv : InvStore st.wallets) (hFresh : TxnIdsFresh st)
    (hne : src ≠ tgt) :
    sumBalances (executeTransfer src tgt a now id id id st).2.wallets
      = sumBalances st.wallets := by
  rcases executeTransfer_id_cases src tgt a now st hInv hFresh hne with
    ⟨e, he⟩ | ⟨sw, tw, hs, ht, hsb, hapos, hok⟩
  · rw [he]
  · rw [hok]
    have hsid := findById_id hs
    have htid := findById_id ht
    have h1 : findById st.wallets (srcClone sw a now).id = some sw := by
      show findById st.wallets sw.id = some sw
      rw [hsid]; exact hs
    have h2 : findById (storeSet st.wallets (srcClone sw a now))
        (tgtClone tw a now).id = some tw := by
      show findById (storeSet st.wallets (srcClone sw a now)) tw.id = some tw
      rw [htid, findById_storeSet_ne _ _
        (show tgt ≠ (srcClone sw a now).id by
          show tgt ≠ sw.id
          rw [hsid]; exact hne.symm)]
      exact ht
    show sumBalances (storeSet (storeSet st.wallets (srcClone sw a now))
      (tgtClone tw a now)) = sumBalances st.wallets
    rw [sumBalances_storeSet h2, sumBalances_storeSet h1]
    simp only [srcClone, tgtClone]
    ring

/-- One transfer request of a sequential run. -/
structure TransferReq where
  sourceId : String
  targetId : String
  amount : ℚ
  t : ℕ

/-- Sequential execution of a list of transfers through the two-phase
protocol (each runs to completion: identity interference). -/
def runTransfers : List TransferReq → SysState → SysState
  | [], st => st
  | r :: rs, st =>
    runTransfers rs (executeTransfer r.sourceId r.targetId r.amount r.t id id id st).2

/-- C1: over well-formed states, a completed (sequential) transfer deducts
exactly the amount from the source and credits exactly the amount to the
target, a failed transfer leaves the state — in particular both stored
balances — unchanged, and the sum of all stored balances is invariant under
every sequence of transfers. -/
theorem transfer_conservation :
    (∀ (src tgt : String) (a : ℚ) (now : ℕ) (st : SysState),
      InvStore st.wallets → TxnIdsFresh st → src ≠ tgt →
      (∀ v st', executeTransfer src tgt a now id id id st = (.ok v, st') →
        ∃ sw tw sw' tw',
          findById st.wallets src = some sw ∧
          findById st.wallets tgt = some tw ∧
          findById st'.wallets src = some sw' ∧
          findById st'.wallets tgt = some tw' ∧
          sw'.balance = sw.balance - a ∧
          tw'.balance = tw.balance + a) ∧
      (∀ e st', executeTransfer src tgt a now id id id st = (.error e, st') →
        st' = st) ∧
      sumBalances (executeTransfer src tgt a now id id id st).2.wallets
        = sumBalances st.wallets) ∧
    (∀ (rs : List TransferReq) (st : SysState),
      InvStore st.wallets → TxnIdsFresh st →
      (∀ r ∈ rs, r.sourceId ≠ r.targetId) →
      sumBalances (runTransfers rs st).wallets = sumBalances st.wallets) := by
  constructor
  · intro src tgt a now st hInv hFresh hne
    refine ⟨?_, ?_, executeTransfer_id_sum src tgt a now st hInv hFresh hne⟩
    · intro v st' hok
      rcases executeTransfer_id_cases src tgt a now st hInv hFresh hne with
        ⟨e, he⟩ | ⟨sw, tw, hs, ht, hsb, hapos, heq⟩
      · rw [he] at hok
        simp at hok
      · rw [heq] at hok
        have hst' : st' =
            { st with
                wallets := storeSet (storeSet st.wallets (srcClone sw a now))
                             (tgtClone tw a now),
                txns := st.txns ++ [transferTxn st.fresh src tgt a sw.currency now],
                fresh := st.fresh + 1 } := by
          have := congrArg Prod.snd hok
          simpa using this.symm
      -- locate both wallets in the final store
        have hsid := findById_id hs
        have htid := findById_id ht
        have hfs : findById st'.wallets src = some (srcClone sw a now) := by
          rw [hst']
          show findById (storeSet (storeSet st.wallets (srcClone sw a now))
            (tgtClone tw a now)) src = some (srcClone sw a now)
          rw [findById_storeSet_ne _ _
            (show src ≠ (tgtClone tw a now).id by
              show src ≠ tw.id
              rw [htid]; exact hne)]
          have : src = (srcClone sw a now).id := by
            show src = sw.id
            rw [hsid]
          rw [this, findById_storeSet_self]
        have hft : findById st'.wallets tgt = some (tgtClone tw a now) := by
          rw [hst']
          have : tgt = (tgtClone tw a now).id := by
            show tgt = tw.id
            rw [htid]
          rw [this]
          exact findById_storeSet_self _ _
        exact ⟨sw, tw, srcClone sw a now, tgtClone tw a now, hs, ht, hfs, hft,
          rfl, rfl⟩
    · intro e st' herr
      rcases executeTransfer_id_cases src tgt a now st hInv hFresh hne with
        ⟨e0, he⟩ | ⟨sw, tw, hs, ht, hsb, hapos, heq⟩
      · rw [he] at herr
        have := congrArg Prod.snd herr
        simpa using this.symm
      · rw [heq] at herr
        simp at herr
  · intro rs
    induction rs with
    | nil => intro st _ _ _; rfl
    | cons r tl ih =>
      intro st hInv hFresh hne
      have hner : r.sourceId ≠ r.targetId := hne r (List.mem_cons_self _ _)
      show sumBalances (runTransfers tl
        (executeTransfer r.sourceId r.targetId r.amount r.t id id id st).2).wallets
          = sumBalances st.wallets
      have hInv' : InvStore
          ((executeTransfer r.sourceId r.targetId r.amount r.t id id id st).2).wallets :=
        @executeTransfer_inv r.sourceId r.targetId r.amount r.t id id id st hInv
          (fun _ h => h) (fun _ h => h) (fun _ h => h)
      rw [ih _ hInv' (executeTransfer_id_fresh _ _ _ _ _ hInv hFresh hner)
            (fun x hx => hne x (List.mem_cons_of_mem _ hx))]
      exact executeTransfer_id_sum _ _ _ _ _ hInv hFresh hner

/-- Fixture: a second stored wallet ("b", balance 5, version 1). -/
def exW2 : Wallet :=
  { id := "b", currency := .USD, balance := 5, version := 1,
    createdAt := 0, updatedAt := 0 }

/-- Fixture: a state holding the two wallets with an empty log and cache. -/
def stAB : SysState := { wallets := [exW, exW2], txns := [], cache := [], fresh := 0 }

/-- C1 witness: the conservation theorem applied to one concrete transfer of
3 from wallet b to wallet a. -/
theorem transfer_conservation_witness :
    sumBalances (runTransfers [⟨"b", "a", 3, 1⟩] stAB).wallets
      = sumBalances stAB.wallets :=
  transfer_conservation.2 [⟨"b", "a", 3, 1⟩] stAB
    (by intro w hw; simp [stAB] at hw; rcases hw with h | h <;> simp [h, exW, exW2])
    (by intro t ht; simp [stAB] at ht)
    (by intro rr hrr; simp at hrr; subst hrr; decide)


lemma runOp_inv (op : Op) (st : SysState) (h : InvStore st.wallets) :
    InvStore (runOp op st).2.wallets := by
  cases op with
  | createWallet c b t => exact createWallet_inv h
  | fundWallet w a k t => exact fundWallet_inv h
  | transferFunds s1 s2 a k t => exact transferFunds_inv h

/-- C2: every state reachable from a state with non-negative stored balances
by any sequence of createWallet / fundWallet / transferFunds operations
again has only non-negative stored balances; and a transfer whose amount
exceeds the source wallet's stored balance fails with InsufficientBalance
(carrying required and available) before any versioned update, leaving the
state untouched. -/
theorem nonneg_balance_invariant :
    (∀ (ops : List Op) (st : SysState), InvStore st.wallets →
      InvStore (runOps ops st).wallets) ∧
    (∀ (src tgt : String) (a : ℚ) (now : ℕ) (e1 e2 e3 : Store → Store)
       (st : SysState) (sw tw : Wallet),
      findById st.wallets src = some sw →
      findById st.wallets tgt = some tw →
      sw.balance < a →
      executeTransfer src tgt a now e1 e2 e3 st
        = (.error (.insufficientBalance src a sw.balance), st)) := by
  constructor
  · intro ops
    induction ops with
    | nil => intro st h; exact h
    | cons op tl ih =>
      intro st h
      exact ih _ (runOp_inv op st h)
  · intro src tgt a now e1 e2 e3 st sw tw hs ht hlt
    simp only [executeTransfer, hs, ht]
    rw [if_pos (by simp [Wallet.hasSufficientBalance, not_le.2 hlt])]

/-- C2 witness: the invariant applied to a concrete run (create, fund,
transfer), and the insufficient-balance clause applied to wallet a (balance
0) attempting to send 7 to wallet b. -/
theorem nonneg_balance_invariant_witness :
    InvStore (runOps
      [Op.createWallet .USD 2 0, Op.fundWallet "a" 100 "k1" 1,
       Op.transferFunds "a" "b" 30 "k2" 2] stAB).wallets ∧
    executeTransfer "a" "b" 7 0 id id id stAB
      = (.error (.insufficientBalance "a" 7 0), stAB) := by
  constructor
  · exact nonneg_balance_invariant.1 _ stAB
      (by intro w hw; simp [stAB] at hw; rcases hw with h | h <;> simp [h, exW, exW2])
  · have h := nonneg_balance_invariant.2 "a" "b" 7 0 id id id stAB exW exW2
      (by decide) (by decide) (by decide)
    simpa [exW] using h


/- Idempotency cache lemmas. -/

lemma cacheGet_cacheSet_self (c : IdemCache) (h : String) (r : IdemRecord) :
    cacheGet (cacheSet c (h, r)) h = some r := by
  induction c with
  | nil => simp [cacheSet, cacheGet]
  | cons x xs ih =>
    by_cases hx : x.1 = h
    · simp [cacheSet, cacheGet, hx]
    · simp only [cacheSet, cacheGet] at ih ⊢
      rw [if_neg (by simpa using hx)]
      rw [List.find?_cons_of_neg _ (by simpa using hx)]
      exact ih

lemma requestDataMatches_self (d : Json) : requestDataMatches d d = true := by
  simp [requestDataMatches]

/-- C5: a second sequential fundWallet call with the same wallet, amount and
idempotency key as an earlier successful call returns exactly the earlier
call's response and leaves the state unchanged — the funding logic is not
executed again. -/
theorem fund_idempotent_retry (walletId : String) (a : ℚ) (key : String)
    (now1 now2 : ℕ) (env1 env2 : Store → Store) (st st1 : SysState)
    (r : ResponseVal)
    (h : fundWallet walletId a key now1 env1 st = (.ok r, st1)) :
    fundWallet walletId a key now2 env2 st1 = (.ok r, st1) := by
  unfold fundWallet at h ⊢
  cases hv : validateAmount a with
  | some e =>
    simp [hv] at h
  | none =>
    simp only [hv, processWithIdempotency] at h ⊢
    cases hc : cacheGet st.cache (generateHash key "FUND_WALLET"
        (.obj (.cons "walletId" (.str walletId)
          (.cons "amount" (.num a) .nil)))) with
    | some rec =>
      simp only [hc] at h
      by_cases hm : requestDataMatches
          (.obj (.cons "walletId" (.str walletId)
            (.cons "amount" (.num a) .nil))) rec.requestData
      · rw [if_neg (by simpa using hm)] at h
        simp only [Prod.mk.injEq, Except.ok.injEq] at h
        obtain ⟨hr, hst⟩ := h
        subst hst
        simp only [hc]
        rw [if_neg (by simpa using hm)]
        rw [hr]
      · rw [if_pos (by simpa using hm)] at h
        simp at h
    | none =>
      simp only [hc] at h
      cases hf : executeFunding walletId a now1 env1 st with
      | mk res st' =>
        rw [hf] at h
        cases res with
        | error e => simp at h
        | ok resp =>
          simp only [Prod.mk.injEq, Except.ok.injEq] at h
          obtain ⟨hr, hst⟩ := h
          have hcache : st1.cache = cacheSet st'.cache
              (generateHash key "FUND_WALLET"
                 (.obj (.cons "walletId" (.str walletId)
                   (.cons "amount" (.num a) .nil))),
               { key := key, operation := "FUND_WALLET",
                 hash := generateHash key "FUND_WALLET"
                   (.obj (.cons "walletId" (.str walletId)
                     (.cons "amount" (.num a) .nil))),
                 requestData := .obj (.cons "walletId" (.str walletId)
                   (.cons "amount" (.num a) .nil)),
                 response := resp, createdAt := now1,
                 expiresAt := now1 + TTL_MS }) := by
            rw [← hst]
            rfl
          simp only [show cacheGet st1.cache (generateHash key "FUND_WALLET"
              (.obj (.cons "walletId" (.str walletId)
                (.cons "amount" (.num a) .nil)))) = some
              { key := key, operation := "FUND_WALLET",
                hash := generateHash key "FUND_WALLET"
                  (.obj (.cons "walletId" (.str walletId)
                    (.cons "amount" (.num a) .nil))),
                requestData := .obj (.cons "walletId" (.str walletId)
                  (.cons "amount" (.num a) .nil)),
                response := resp, createdAt := now1,
                expiresAt := now1 + TTL_MS } from by
            rw [hcache]
            exact cacheGet_cacheSet_self _ _ _]
          rw [if_neg (by simp [requestDataMatches_self])]
          rw [hr]

/-- Fixture: the first successful funding response on stAB. -/
def fundResp1 : WalletResponse :=
  { id := "a", currency := .USD, balance := 100, version := 2,
    createdAt := 0, updatedAt := 0 }

/-- Fixture: the idempotency record cached by the first funding call. -/
def rec1 : IdemRecord :=
  { key := "k1", operation := "FUND_WALLET",
    hash := "k1|FUND_WALLET|\x7b\"amount\":100,\"walletId\":\"a\"\x7d",
    requestData := .obj (.cons "walletId" (.str "a")
      (.cons "amount" (.num 100) .nil)),
    response := .fund fundResp1, createdAt := 0, expiresAt := 86400000 }

/-- Fixture: the state after funding wallet a with 100 under key k1. -/
def stAfterFund : SysState :=
  { wallets := [{ id := "a", currency := .USD, balance := 100, version := 2,
                  createdAt := 0, updatedAt := 0 }, exW2],
    txns := [{ id := 0, reference := "ref-0", type := .FUNDING,
               sourceWalletId := none, targetWalletId := "a", amount := 100,
               currency := .USD, status := .COMPLETED, createdAt := 0,
               updatedAt := 0 }],
    cache := [(rec1.hash, rec1)], fresh := 1 }

/-- C5 witness: after fundWallet(a, 100, k1) on the two-wallet state, a
second identical call returns the cached response and leaves the balance at
100, not 200. -/
theorem fund_idempotent_retry_witness :
    fundWallet "a" 100 "k1" 5 id stAfterFund = (.ok (.fund fundResp1), stAfterFund) ∧
    (findById stAfterFund.wallets "a").map Wallet.balance = some 100 :=
  ⟨fund_idempotent_retry "a" 100 "k1" 0 5 id id stAB stAfterFund
      (.fund fundResp1) (by decide!),
   by decide!⟩


/-- C4: evaluating the code at the failing input.  After fundWallet(a, 100,
"k1") succeeds, a second fundWallet(a, 200, "k1") with the same key but a
different amount does not fail with DuplicateTransaction: the fingerprint
includes the parameters, so the lookup misses, the funding executes again
and the balance becomes 300. -/
theorem key_reuse_executes_again :
    (fundWallet "a" 200 "k1" 1 id stAfterFund).1
      = .ok (.fund { id := "a", currency := .USD, balance := 300, version := 3,
                     createdAt := 0, updatedAt := 1 }) ∧
    (findById (fundWallet "a" 200 "k1" 1 id stAfterFund).2.wallets "a").map
      Wallet.balance = some 300 := by
  refine ⟨by decide!, by decide!⟩

/-- C7: evaluating the code at the failing input.  The scheduled cleanup
callback receives the client key where a hash is expected and deletes
nothing; the lookup of processWithIdempotency never consults expiresAt; so a
call made after the record's expiry still returns the cached response
instead of re-executing the operation (balance stays 100, state unchanged).
Only a cleanup invoked with the actual hash would delete the record. -/
theorem expired_record_still_served :
    cleanupExpired stAfterFund.cache "k1" TTL_MS = stAfterFund.cache ∧
    (cacheGet stAfterFund.cache rec1.hash).isSome = true ∧
    rec1.expiresAt < TTL_MS + 1 ∧
    fundWallet "a" 100 "k1" (TTL_MS + 1) id stAfterFund
      = (.ok (.fund fundResp1), stAfterFund) ∧
    cleanupExpired stAfterFund.cache rec1.hash (TTL_MS + 1) = [] := by
  refine ⟨by decide, by decide, by decide, by decide!, by decide⟩

/-- C8: validateAmount rejects exactly the amounts that are non-positive,
above 1,000,000, or carry more than 2 fractional digits; the error is
InvalidTransactionAmount; and both fundWallet and transferFunds surface it
with the state untouched — before any mutation. -/
theorem amount_validation :
    (∀ a : ℚ, (validateAmount a).isSome ↔
      (a ≤ 0 ∨ 1000000 < a ∨ (a * 100).den ≠ 1)) ∧
    (∀ (a : ℚ) (e : Err), validateAmount a = some e →
      ∃ reason, e = .invalidTransactionAmount a reason) ∧
    (∀ (wid key : String) (a : ℚ) (now : ℕ) (env : Store → Store)
       (st : SysState) (e : Err),
      validateAmount a = some e →
      fundWallet wid a key now env st = (.error e, st)) ∧
    (∀ (src tgt key : String) (a : ℚ) (now : ℕ)
       (envs : ℕ → (Store → Store) × (Store → Store) × (Store → Store))
       (st : SysState) (e : Err),
      validateAmount a = some e →
      transferFunds src tgt a key now envs st = (.error e, st)) := by
  refine ⟨?_, ?_, ?_, ?_⟩
  · intro a
    unfold validateAmount
    by_cases h1 : a ≤ 0
    · simp [h1]
    · rw [if_neg h1]
      by_cases h2 : a > 1000000
      · simp [h1, h2]
      · rw [if_neg h2]
        by_cases h3 : (a * 100).den ≠ 1
        · simp [h1, h2, h3]
        · simp [h1, h2, h3]
  · intro a e h
    unfold validateAmount at h
    by_cases h1 : a ≤ 0
    · rw [if_pos h1] at h
      exact ⟨"Amount must be positive", by injection h with h'; exact h'.symm⟩
    · rw [if_neg h1] at h
      by_cases h2 : a > 1000000
      · rw [if_pos h2] at h
        exact ⟨"Amount cannot exceed 1000000", by injection h with h'; exact h'.symm⟩
      · rw [if_neg h2] at h
        by_cases h3 : (a * 100).den ≠ 1
        · rw [if_pos h3] at h
          exact ⟨"Amount cannot have more than 2 decimal places",
            by injection h with h'; exact h'.symm⟩
        · rw [if_neg h3] at h
          simp at h
  · intro wid key a now env st e h
    unfold fundWallet
    simp only [h]
  · intro src tgt key a now envs st e h
    unfold transferFunds
    simp only [h]

/-- C8 witness: 0.125 has three fractional digits and is rejected by
fundWallet before any mutation; 99 passes validation. -/
theorem amount_validation_witness :
    fundWallet "w" (1/8) "k" 0 id stAB
      = (.error (.invalidTransactionAmount (1/8)
          "Amount cannot have more than 2 decimal places"), stAB) ∧
    ¬ (validateAmount (99 : ℚ)).isSome :=
  ⟨amount_validation.2.2.1 "w" "k" (1/8) 0 id stAB _ (by decide!),
   fun hs => absurd ((amount_validation.1 99).1 hs) (by decide!)⟩

/-- C9: evaluating the reference generator at the failing counter state.
The counter advances through (counter % 1000) + 1, reaching the value 1000,
which String(...).padStart(3, "0") renders as the four-digit "1000": that
reference violates the TXN-14digits-3digits-4alnum pattern asserted by the
spec and by the repository's own test suite; the next call wraps the
counter back to 1; for counter states below 999 the pattern holds. -/
theorem reference_counter_overflow :
    generateTransactionReference ⟨2025, 1, 15, 12, 30, 45, 123⟩ 999 [10, 7, 15, 3]
      = ("TXN-20250115123045-1000-A7F3", 1000) ∧
    matchesReferencePattern "TXN-20250115123045-1000-A7F3" = false ∧
    (generateTransactionReference ⟨2025, 1, 15, 12, 30, 45, 123⟩ 1000 [10, 7, 15, 3]).2
      = 1 ∧
    matchesReferencePattern
      (generateTransactionReference ⟨2025, 1, 15, 12, 30, 45, 123⟩ 0 [10, 7, 15, 3]).1
      = true := by
  refine ⟨by decide, by decide, by decide, by decide⟩

/-- The retry wrapper retries an attempt that threw ConcurrentModification
whenever attempts remain: the result is that of the next attempt against the
post-attempt state, after sleeping the linear backoff. -/
lemma retry_on_conflict (src tgt : String) (a : ℚ) (now : ℕ)
    (envs : ℕ → (Store → Store) × (Store → Store) × (Store → Store))
    (st st2 : SysState) (res rid : String) (attempt : ℕ)
    (hlt : attempt < MAX_RETRY_ATTEMPTS)
    (h : executeTransfer src tgt a now (envs attempt).1 (envs attempt).2.1
          (envs attempt).2.2 st = (.error (.concurrentModification res rid), st2)) :
    executeTransferWithRetry src tgt a now envs st attempt
      = ((executeTransferWithRetry src tgt a now envs st2 (attempt + 1)).1,
         (executeTransferWithRetry src tgt a now envs st2 (attempt + 1)).2.1,
         backoffMs attempt ::
           (executeTransferWithRetry src tgt a now envs st2 (attempt + 1)).2.2) := by
  conv_lhs => rw [executeTransferWithRetry]
  simp only [h]
  rw [if_pos hlt]

/-- Once the attempt bound is reached, a conflicting attempt is rethrown
without any further retry. -/
lemma retry_exhausted (src tgt : String) (a : ℚ) (now : ℕ)
    (envs : ℕ → (Store → Store) × (Store → Store) × (Store → Store))
    (st st2 : SysState) (res rid : String)
    (h : executeTransfer src tgt a now (envs 3).1 (envs 3).2.1 (envs 3).2.2 st
          = (.error (.concurrentModification res rid), st2)) :
    executeTransferWithRetry src tgt a now envs st 3
      = (.error (.concurrentModification res rid), st2, []) := by
  conv_lhs => rw [executeTransferWithRetry]
  simp only [h]
  rw [if_neg (by simp [MAX_RETRY_ATTEMPTS])]

/-- C10: when the single version-checked update inside executeFunding
reports a conflict, the funding immediately surfaces ConcurrentModification
with no re-fetch or retry, the stored wallets show only the environment's
interference, and neither the transaction log, the cache nor the fresh-id
supply move (no FUNDING transaction is appended).  Transfers instead retry a
conflicting attempt — with backoff — while attempts remain, and only rethrow
once the bound of 3 is reached. -/
theorem funding_single_attempt :
    (∀ (wid : String) (a : ℚ) (now : ℕ) (env : Store → Store) (st : SysState)
       (w funded : Wallet),
      findById st.wallets wid = some w →
      Wallet.fund w a now = .ok funded →
      repoUpdate (env st.wallets) funded w.version now
        = .ok (false, funded, env st.wallets) →
      executeFunding wid a now env st
        = (.error (.concurrentModification "Wallet" wid),
           { st with wallets := env st.wallets })) ∧
    (∀ (src tgt : String) (a : ℚ) (now : ℕ)
       (envs : ℕ → (Store → Store) × (Store → Store) × (Store → Store))
       (st st2 : SysState) (res rid : String),
      executeTransfer src tgt a now (envs 1).1 (envs 1).2.1 (envs 1).2.2 st
        = (.error (.concurrentModification res rid), st2) →
      executeTransferWithRetry src tgt a now envs st 1
        = ((executeTransferWithRetry src tgt a now envs st2 2).1,
           (executeTransferWithRetry src tgt a now envs st2 2).2.1,
           backoffMs 1 :: (executeTransferWithRetry src tgt a now envs st2 2).2.2)) ∧
    (∀ (src tgt : String) (a : ℚ) (now : ℕ)
       (envs : ℕ → (Store → Store) × (Store → Store) × (Store → Store))
       (st st2 : SysState) (res rid : String),
      executeTransfer src tgt a now (envs 3).1 (envs 3).2.1 (envs 3).2.2 st
        = (.error (.concurrentModification res rid), st2) →
      executeTransferWithRetry src tgt a now envs st 3
        = (.error (.concurrentModification res rid), st2, [])) := by
  refine ⟨?_, ?_, ?_⟩
  · intro wid a now env st w funded h1 h2 h3
    unfold executeFunding
    simp only [h1, h2, h3]
    rw [if_neg (by simp)]
  · intro src tgt a now envs st st2 res rid h
    exact retry_on_conflict src tgt a now envs st st2 res rid 1 (by decide) h
  · intro src tgt a now envs st st2 res rid h
    exact retry_exhausted src tgt a now envs st st2 res rid h

/-- C10 witness: an interleaved deletion of the wallet between fetch and
update makes the funding update report a conflict; the funding surfaces the
error at once with no transaction appended. -/
theorem funding_single_attempt_witness :
    executeFunding "a" 100 7 (fun _ => []) stAB
      = (.error (.concurrentModification "Wallet" "a"),
         { stAB with wallets := [] }) :=
  funding_single_attempt.1 "a" 100 7 (fun _ => []) stAB exW
    { id := "a", currency := .USD, balance := 100, version := 2,
      createdAt := 0, updatedAt := 7 }
    (by decide) (by decide!) (by decide!)

/-- Fixture: source wallet of the rollback-failure scenario. -/
def cwA : Wallet :=
  { id := "a", currency := .USD, balance := 100, version := 1,
    createdAt := 0, updatedAt := 0 }

/-- Fixture: target wallet of the rollback-failure scenario. -/
def cwB : Wallet :=
  { id := "b", currency := .USD, balance := 0, version := 1,
    createdAt := 0, updatedAt := 0 }

/-- Fixture: initial state of the rollback-failure scenario. -/
def stC6 : SysState := { wallets := [cwA, cwB], txns := [], cache := [], fresh := 0 }

/-- Fixture: interference before the target update — a concurrent task has
bumped the target wallet's version. -/
def env2c : Store → Store := fun _ =>
  [{ id := "a", currency := .USD, balance := 70, version := 2,
     createdAt := 0, updatedAt := 5 },
   { id := "b", currency := .USD, balance := 0, version := 2,
     createdAt := 0, updatedAt := 5 }]

/-- Fixture: interference before the rollback update — a concurrent task has
bumped the source wallet's version, so the rollback update also fails. -/
def env3c : Store → Store := fun _ =>
  [{ id := "a", currency := .USD, balance := 70, version := 3,
     createdAt := 0, updatedAt := 5 },
   { id := "b", currency := .USD, balance := 0, version := 2,
     createdAt := 0, updatedAt := 5 }]

/-- Fixture: per-attempt interference of the rollback-failure scenario. -/
def envsC6 : ℕ → (Store → Store) × (Store → Store) × (Store → Store) :=
  fun _ => (id, env2c, env3c)

/-- C6 counterexample: a run in which the source deduction succeeds, the
target credit fails on version conflict and the compensating rollback update
also fails (the stored source version moved to 3, the rollback expected 2).
The transfer surfaces the ordinary ConcurrentModification for the target —
no distinct critical error exists — the source balance stays at the
deducted 70 (the failed rollback is silently ignored), and the retry
wrapper retries the attempt (it sleeps the 10 ms backoff). -/
theorem rollback_failure_counterexample :
    repoUpdate (env3c [])
      { id := "a", currency := .USD, balance := 100, version := 2,
        createdAt := 0, updatedAt := 5 } 2 5
      = .ok (false,
         { id := "a", currency := .USD, balance := 100, version := 2,
           createdAt := 0, updatedAt := 5 }, env3c []) ∧
    executeTransfer "a" "b" 30 5 id env2c env3c stC6
      = (.error (.concurrentModification "Wallet" "b"),
         { stC6 with wallets := env3c [] }) ∧
    (findById (executeTransfer "a" "b" 30 5 id env2c env3c stC6).2.wallets "a").map
      Wallet.balance = some 70 ∧
    (executeTransferWithRetry "a" "b" 30 5 envsC6 stC6 1).2.2 = [10] := by
  refine ⟨by decide!, by decide!, by decide!, by decide!⟩

/-- C6 (amended): a failed rollback update is swallowed, never escalated —
when the stored source wallet is missing or its version no longer matches,
rollbackSourceWallet returns the store unchanged and raises nothing; the
transfer then surfaces the ordinary retryable ConcurrencyConflict for the
target wallet, which the retry wrapper retries like any other conflict
while attempts remain. -/
theorem rollback_failure_swallowed :
    (∀ (s : Store) (w : Wallet) (b : ℚ) (v now : ℕ),
      (∀ ex, findById s w.id = some ex → ex.version ≠ v) →
      rollbackSourceWallet s w b v now = s) ∧
    (∀ (src tgt : String) (a : ℚ) (now : ℕ)
       (envs : ℕ → (Store → Store) × (Store → Store) × (Store → Store))
       (st st2 : SysState) (res rid : String),
      executeTransfer src tgt a now (envs 1).1 (envs 1).2.1 (envs 1).2.2 st
        = (.error (.concurrentModification res rid), st2) →
      executeTransferWithRetry src tgt a now envs st 1
        = ((executeTransferWithRetry src tgt a now envs st2 2).1,
           (executeTransferWithRetry src tgt a now envs st2 2).2.1,
           backoffMs 1 :: (executeTransferWithRetry src tgt a now envs st2 2).2.2)) := by
  constructor
  · intro s w b v now hfail
    cases hf : findById s w.id with
    | none =>
      have hf' : findById s ({ w with balance := b, version := v } : Wallet).id = none := hf
      simp only [rollbackSourceWallet, repoUpdate_not_found hf']
    | some ex =>
      have hf' : findById s ({ w with balance := b, version := v } : Wallet).id = some ex := hf
      simp only [rollbackSourceWallet, repoUpdate_version_mismatch hf' (hfail ex hf)]
  · intro src tgt a now envs st st2 res rid h
    exact retry_on_conflict src tgt a now envs st st2 res rid 1 (by decide) h

/-- C6 witness: the amended theorem applied to a store whose wallet sits at
version 1 while the rollback expects version 7 — the rollback fails and the
store is returned unchanged. -/
theorem rollback_failure_swallowed_witness :
    rollbackSourceWallet [exW] exW 0 7 5 = [exW] :=
  rollback_failure_swallowed.1 [exW] exW 0 7 5
    (fun ex hex => by
      have hx : exW = ex := by
        simpa [findById, exW] using hex
      rw [← hx]
      decide)

end WalletSys
